import Mathlib

/-!
Shallow embedding of the credity backend services:
verification sessions (`backend-api/src/services/verification.py`) and
the trust-score computation (`backend-api/src/services/trust_score.py`),
together with theorems checking the natural-language specification of the
repository against this code.
-/

namespace Credity

/-!
Trust score.  `calculate_trust_score` computes
`total_score = int(identity * 0.4 + activity * 0.3 + reputation * 0.3)`
in Python, that is in IEEE-754 binary64 arithmetic with round-to-nearest,
ties-to-even, truncated toward zero by `int`.  For sub-scores in `[0, 100]`
every value arising in this computation is a nonnegative integer multiple
of `2 ^ (-54)`, far away from overflow and underflow, so the computation
embeds exactly into `Nat` by representing a double `x` as `x * 2 ^ 54`.
-/

/-- Number of binary digits of `n`, with explicit fuel (the fuel suffices
for every `n < 2 ^ fuel`). -/
def bitLenAux : Nat → Nat → Nat
  | 0, _ => 0
  | f + 1, n => if n = 0 then 0 else bitLenAux f (n / 2) + 1

/-- Number of binary digits of `n`, for `n < 2 ^ 64`. -/
def bitLen (n : Nat) : Nat := bitLenAux 64 n

/-- Value of the IEEE-754 binary64 literal `0.4`, scaled by `2 ^ 54`. -/
def c4n : Nat := 7205759403792794

/-- Value of the IEEE-754 binary64 literal `0.3`, scaled by `2 ^ 54`. -/
def c3n : Nat := 5404319552844595

/-- Round the value `n * 2 ^ (-54)` to the nearest binary64 float (53-bit
significand, ties to even), returning the result scaled by `2 ^ 54`.
Faithful for nonnegative values far from overflow and underflow, which
covers every intermediate value of the trust-score computation. -/
def roundMant (n : Nat) : Nat :=
  if bitLen n ≤ 53 then n
  else
    (if n % 2 ^ (bitLen n - 53) < 2 ^ (bitLen n - 53 - 1) then
      n / 2 ^ (bitLen n - 53)
    else if 2 ^ (bitLen n - 53 - 1) < n % 2 ^ (bitLen n - 53) then
      n / 2 ^ (bitLen n - 53) + 1
    else if (n / 2 ^ (bitLen n - 53)) % 2 = 0 then
      n / 2 ^ (bitLen n - 53)
    else
      n / 2 ^ (bitLen n - 53) + 1) * 2 ^ (bitLen n - 53)

/-- Model of the weighted total of `calculate_trust_score`
(trust_score.py lines 211-213):
`int((identity_score * 0.4) + (activity_score * 0.3) + (reputation_score * 0.3))`,
with every multiplication and addition rounded to binary64 and the result
truncated by `int`; all values are scaled by `2 ^ 54`. -/
def total_score (identity activity reputation : Nat) : Nat :=
  roundMant (roundMant (roundMant (identity * c4n) + roundMant (activity * c3n)) +
    roundMant (reputation * c3n)) / 2 ^ 54

/-- Model of the suggestion list built by `calculate_identity_score`
(trust_score.py lines 55-112), in source order: liveness, document,
biometric. -/
def identity_suggestions (has_liveness has_document has_biometric : Bool) : List String :=
  (if has_liveness then [] else ["Complete liveness verification to boost your identity score"]) ++
  (if has_document then [] else ["Upload and verify your government ID document"]) ++
  (if has_biometric then [] else ["Complete face match verification for additional security"])

/-- Model of the suggestion list built by `calculate_activity_score`
(trust_score.py lines 115-167), in source order: verification sessions,
connections, credentials. -/
def activity_suggestions (verification_count connection_count credential_count : Nat) :
    List String :=
  (if verification_count < 3 then
    ["Complete more verification sessions to improve activity score"] else []) ++
  (if connection_count < 4 then
    ["Connect more platforms to increase your activity score"] else []) ++
  (if credential_count < 3 then
    ["Add more verified credentials to your profile"] else [])

/-- Model of the suggestion list built by `calculate_reputation_score`
(trust_score.py lines 170-192); both suggestions are appended
unconditionally. -/
def reputation_suggestions : List String :=
  ["Request endorsements from verified connections",
   "Build your reputation through positive interactions"]

/-- Model of the suggestion assembly of `calculate_trust_score`
(trust_score.py lines 215-217): concatenate the three component suggestion
lists and keep the first three entries. -/
def trust_score_suggestions (has_liveness has_document has_biometric : Bool)
    (verification_count connection_count credential_count : Nat) : List String :=
  (identity_suggestions has_liveness has_document has_biometric ++
    activity_suggestions verification_count connection_count credential_count ++
    reputation_suggestions).take 3

/-!
Verification sessions.  The service manipulates two relational tables,
`verification_sessions` and `verification_steps` (db/models/verification.py);
each step row carries the `session_id` of its parent session.  The store is
embedded as a list of sessions, each holding the list of its step rows; on
stores where session ids are unique (which the service guarantees, the ids
being fresh uuids) this is exactly the flat two-table picture.  Queries
through `scalar_one_or_none` become `List.find?`, and a committed SQL
`UPDATE` of the selected row becomes `updateFirst`.
-/

/-- Statuses of `VerificationStatus` (db/models/verification.py). -/
inductive VerificationStatus
  | pending
  | in_progress
  | completed
  | failed
  deriving DecidableEq

/-- Names of `VerificationStepName` (db/models/verification.py):
Liveness Check, Document (Front), Document (Back), Face Match, DigiLocker. -/
inductive StepName
  | liveness
  | document_front
  | document_back
  | face_match
  | digilocker
  deriving DecidableEq, Fintype

/-- Row of the `verification_steps` table (the fields the service logic
reads or writes; `session_id` is represented by the parent session). -/
structure VerificationStep where
  name : StepName
  status : VerificationStatus
  score : Option Int
  media_path : Option String
  deriving DecidableEq

/-- Row of the `verification_sessions` table together with its `steps`
relationship. -/
structure VerificationSession where
  id : String
  user_id : String
  status : VerificationStatus
  steps : List VerificationStep
  deriving DecidableEq

/-- Database state: the list of sessions (each with its step rows). -/
abbrev Store := List VerificationSession

/-- Update the first element satisfying `p`: the row a committed SQL
`UPDATE ... WHERE key = v` hits when the key is unique. -/
def updateFirst (p : α → Bool) (f : α → α) : List α → List α
  | [] => []
  | x :: xs => if p x then f x :: xs else x :: updateFirst p f xs

/-- Filter of the query built by `get_verification_session`
(verification.py lines 62-65): always `id == session_id`, and additionally
`user_id == uid` when the optional `user_id` argument is truthy (Python
`if user_id:` — both `None` and `""` are falsy). -/
def session_query (sid : String) (uid : Option String) (t : VerificationSession) : Bool :=
  decide (t.id = sid) &&
    match uid with
    | none => true
    | some u => if u = "" then true else decide (t.user_id = u)

/-- Model of `get_verification_session` (verification.py lines 59-68). -/
def get_verification_session (store : Store) (sid : String) (uid : Option String) :
    Option VerificationSession :=
  store.find? (session_query sid uid)

/-- Lookup of the step row with the given `session_id` and `name`, as in
the `select(VerificationStep).where(...)` queries of the service.  With
referential integrity the step rows whose `session_id` is `sid` are
exactly the steps of the session whose id is `sid`. -/
def findStep (store : Store) (sid : String) (n : StepName) : Option VerificationStep :=
  match store.find? (fun t => decide (t.id = sid)) with
  | none => none
  | some t => t.steps.find? (fun st => decide (st.name = n))

/-- Field updates `update_step_status` applies to the selected step row
(verification.py lines 88-93): the status always, `score` and `media_path`
only when the corresponding optional argument is not `None`. -/
def apply_step_update (status : VerificationStatus) (score : Option Int)
    (media_path : Option String) (st : VerificationStep) : VerificationStep :=
  { st with
    status := status
    score := match score with | some v => some v | none => st.score
    media_path := match media_path with | some v => some v | none => st.media_path }

/-- Model of `update_step_status` (verification.py lines 71-98): select the
step row by `(session_id, name)`; if present, update it and commit; if
absent, change nothing.  Returns the selected step after the update
together with the new store. -/
def update_step_status (store : Store) (sid : String) (n : StepName)
    (status : VerificationStatus) (score : Option Int) (media_path : Option String) :
    Option VerificationStep × Store :=
  match findStep store sid n with
  | none => (none, store)
  | some st =>
      (some (apply_step_update status score media_path st),
       updateFirst (fun t => decide (t.id = sid))
         (fun t =>
           { t with
             steps := updateFirst (fun s2 => decide (s2.name = n))
               (apply_step_update status score media_path) t.steps })
         store)

/-- Status derivation of `update_session_status` (verification.py lines
113-122): any failed step makes the session failed; else all steps
completed makes it completed; else any step in progress makes it in
progress; else the stored status is left as it is. -/
def aggregate_status (steps : List VerificationStep) (old : VerificationStatus) :
    VerificationStatus :=
  if steps.any fun st => decide (st.status = VerificationStatus.failed) then
    VerificationStatus.failed
  else if steps.all fun st => decide (st.status = VerificationStatus.completed) then
    VerificationStatus.completed
  else if steps.any fun st => decide (st.status = VerificationStatus.in_progress) then
    VerificationStatus.in_progress
  else old

/-- Model of `update_session_status` (verification.py lines 101-125): fetch
the session by id only, return it unchanged when it has no steps, otherwise
recompute its status from the steps and commit. -/
def update_session_status (store : Store) (sid : String) :
    Option VerificationSession × Store :=
  match get_verification_session store sid none with
  | none => (none, store)
  | some t =>
      if t.steps.isEmpty then (some t, store)
      else
        (some { t with status := aggregate_status t.steps t.status },
         updateFirst (fun u => decide (u.id = sid))
           (fun u => { u with status := aggregate_status t.steps t.status }) store)

/-- Model of `submit_liveness` (verification.py lines 128-154): ownership
check, mark the Liveness step in progress, then completed with the mock
score 95, then recompute the session status. -/
def submit_liveness (store : Store) (sid uid : String) :
    Option VerificationSession × Store :=
  match get_verification_session store sid (some uid) with
  | none => (none, store)
  | some _ =>
      let store1 := (update_step_status store sid StepName.liveness
        VerificationStatus.in_progress none none).2
      let store2 := (update_step_status store1 sid StepName.liveness
        VerificationStatus.completed (some 95) none).2
      update_session_status store2 sid

/-- Model of `submit_document` (verification.py lines 157-216): the target
step is Document (Front) exactly when `document_type == "front"` and
Document (Back) otherwise; the step is marked in progress then completed
with mock score 90; then, when both document steps are completed, the
Face Match step is auto-completed with mock score 88; finally the session
status is recomputed. -/
def submit_document (store : Store) (sid uid : String) (document_type : String) :
    Option VerificationSession × Store :=
  match get_verification_session store sid (some uid) with
  | none => (none, store)
  | some _ =>
      let step_name := if document_type = "front" then StepName.document_front
        else StepName.document_back
      let store1 := (update_step_status store sid step_name
        VerificationStatus.in_progress none none).2
      let store2 := (update_step_status store1 sid step_name
        VerificationStatus.completed (some 90) none).2
      let store3 :=
        match findStep store2 sid StepName.document_front,
              findStep store2 sid StepName.document_back with
        | some front_step, some back_step =>
            if front_step.status = VerificationStatus.completed ∧
               back_step.status = VerificationStatus.completed then
              (update_step_status store2 sid StepName.face_match
                VerificationStatus.completed (some 88) none).2
            else store2
        | _, _ => store2
      update_session_status store3 sid

/-- Model of `connect_digilocker` (verification.py lines 219-245): like
`submit_liveness` but on the DigiLocker step with mock score 100. -/
def connect_digilocker (store : Store) (sid uid : String) :
    Option VerificationSession × Store :=
  match get_verification_session store sid (some uid) with
  | none => (none, store)
  | some _ =>
      let store1 := (update_step_status store sid StepName.digilocker
        VerificationStatus.in_progress none none).2
      let store2 := (update_step_status store1 sid StepName.digilocker
        VerificationStatus.completed (some 100) none).2
      update_session_status store2 sid

/-- Required steps of `submit_session` (verification.py lines 257-262):
DigiLocker is excluded. -/
def required_steps : List StepName :=
  [StepName.liveness, StepName.document_front, StepName.document_back, StepName.face_match]

/-- Model of `submit_session` (verification.py lines 248-280): count the
steps whose name is required and whose status is completed; when the count
reaches the number of required steps, force the session status to
completed and commit; otherwise change nothing and raise no error. -/
def submit_session (store : Store) (sid uid : String) :
    Option VerificationSession × Store :=
  match get_verification_session store sid (some uid) with
  | none => (none, store)
  | some t =>
      let steps_completed := t.steps.countP fun st =>
        decide (st.name ∈ required_steps) && decide (st.status = VerificationStatus.completed)
      if steps_completed ≥ required_steps.length then
        (some { t with status := VerificationStatus.completed },
         updateFirst (fun u => decide (u.id = sid))
           (fun u => { u with status := VerificationStatus.completed }) store)
      else (some t, store)

/-- Step rows created by `create_verification_session` (verification.py
lines 34-50), in creation order, all pending with no score and no media. -/
def fresh_steps : List VerificationStep :=
  [{ name := StepName.liveness, status := VerificationStatus.pending,
     score := none, media_path := none },
   { name := StepName.document_front, status := VerificationStatus.pending,
     score := none, media_path := none },
   { name := StepName.document_back, status := VerificationStatus.pending,
     score := none, media_path := none },
   { name := StepName.face_match, status := VerificationStatus.pending,
     score := none, media_path := none },
   { name := StepName.digilocker, status := VerificationStatus.pending,
     score := none, media_path := none }]

/-- Model of `create_verification_session` (verification.py lines 20-56);
the fresh uuid is passed in as `sid`. -/
def create_verification_session (store : Store) (sid uid : String) : Store :=
  store ++ [{ id := sid, user_id := uid, status := VerificationStatus.pending,
              steps := fresh_steps }]

/-- Well-formedness of a session's step list, guaranteed by creation: the
step names are distinct and all five names are present. -/
abbrev SessionWF (t : VerificationSession) : Prop :=
  (t.steps.map VerificationStep.name).Nodup ∧
    ∀ n : StepName, ∃ st ∈ t.steps, st.name = n

/-- Well-formedness of a store, guaranteed by the service (fresh uuids,
sessions created with their five steps): session ids are distinct and
every session is well formed. -/
abbrev StoreWF (store : Store) : Prop :=
  (store.map VerificationSession.id).Nodup ∧ ∀ t ∈ store, SessionWF t

/-- Status of the step row with the given session id and name. -/
def step_status (store : Store) (sid : String) (n : StepName) : Option VerificationStatus :=
  (findStep store sid n).map VerificationStep.status

/-- Score of the step row with the given session id and name. -/
def step_score (store : Store) (sid : String) (n : StepName) : Option (Option Int) :=
  (findStep store sid n).map VerificationStep.score

/-- Media reference of the step row with the given session id and name. -/
def step_media (store : Store) (sid : String) (n : StepName) : Option (Option String) :=
  (findStep store sid n).map VerificationStep.media_path

/-- Step rows of a fresh session after `submit_liveness`: the Liveness step
completed with score 95, the other four untouched. -/
def completed_liveness_steps : List VerificationStep :=
  [{ name := StepName.liveness, status := VerificationStatus.completed,
     score := some 95, media_path := none },
   { name := StepName.document_front, status := VerificationStatus.pending,
     score := none, media_path := none },
   { name := StepName.document_back, status := VerificationStatus.pending,
     score := none, media_path := none },
   { name := StepName.face_match, status := VerificationStatus.pending,
     score := none, media_path := none },
   { name := StepName.digilocker, status := VerificationStatus.pending,
     score := none, media_path := none }]

/-- Fixture: a session whose only step failed (exercises the aggregation). -/
def sessionA : VerificationSession :=
  { id := "s1", user_id := "u1", status := VerificationStatus.pending,
    steps := [{ name := StepName.liveness, status := VerificationStatus.failed,
                score := none, media_path := none }] }

/-- Fixture store holding `sessionA`. -/
def storeA : Store := [sessionA]

/-- Fixture: a freshly created session, as `create_verification_session`
builds it. -/
def sessionB : VerificationSession :=
  { id := "s1", user_id := "u1", status := VerificationStatus.pending,
    steps := fresh_steps }

/-- Fixture store holding `sessionB`. -/
def storeB : Store := [sessionB]

/-- Fixture: a session whose four required steps are completed while
DigiLocker is still pending. -/
def sessionC : VerificationSession :=
  { id := "s1", user_id := "u1", status := VerificationStatus.pending,
    steps :=
      [{ name := StepName.liveness, status := VerificationStatus.completed,
         score := some 95, media_path := none },
       { name := StepName.document_front, status := VerificationStatus.completed,
         score := some 90, media_path := none },
       { name := StepName.document_back, status := VerificationStatus.completed,
         score := some 90, media_path := none },
       { name := StepName.face_match, status := VerificationStatus.completed,
         score := some 88, media_path := none },
       { name := StepName.digilocker, status := VerificationStatus.pending,
         score := none, media_path := none }] }

/-- Fixture store holding `sessionC`. -/
def storeC : Store := [sessionC]

/-!
Helper lemmas about `List.find?` and `updateFirst`.
-/

theorem updateFirst_eq_self {α : Type} {p : α → Bool} {f : α → α} {l : List α}
    (h : ∀ x ∈ l, p x = false) : updateFirst p f l = l := by
  induction l with
  | nil => rfl
  | cons y l ih =>
    have hy := h y (List.mem_cons_self y l)
    simp [updateFirst, hy, ih fun x hx => h x (List.mem_cons_of_mem y hx)]

theorem find?_append_of_forall {α : Type} {p : α → Bool} {l₁ l₂ : List α}
    (h : ∀ x ∈ l₁, p x = false) : (l₁ ++ l₂).find? p = l₂.find? p := by
  induction l₁ with
  | nil => rfl
  | cons y l ih =>
    have hy := h y (List.mem_cons_self y l)
    simp [List.find?_cons, hy, ih fun x hx => h x (List.mem_cons_of_mem y hx)]

theorem updateFirst_append_of_forall {α : Type} {p : α → Bool} {f : α → α} {l₁ l₂ : List α}
    (h : ∀ x ∈ l₁, p x = false) : updateFirst p f (l₁ ++ l₂) = l₁ ++ updateFirst p f l₂ := by
  induction l₁ with
  | nil => rfl
  | cons y l ih =>
    have hy := h y (List.mem_cons_self y l)
    simp [updateFirst, hy, ih fun x hx => h x (List.mem_cons_of_mem y hx)]

theorem find?_updateFirst_same {α : Type} {p : α → Bool} {f : α → α}
    (hf : ∀ x, p (f x) = p x) (l : List α) :
    (updateFirst p f l).find? p = (l.find? p).map f := by
  induction l with
  | nil => rfl
  | cons y l ih =>
    cases hy : p y with
    | true => simp [updateFirst, hy, List.find?_cons, hf y]
    | false => simp [updateFirst, hy, List.find?_cons, ih]

theorem find?_updateFirst_other {α : Type} {p q : α → Bool} {f : α → α}
    (hq : ∀ x, q (f x) = q x) (hdisj : ∀ x, p x = true → q x = false) (l : List α) :
    (updateFirst p f l).find? q = l.find? q := by
  induction l with
  | nil => rfl
  | cons y l ih =>
    cases hy : p y with
    | true => simp [updateFirst, hy, List.find?_cons, hq y, hdisj y hy]
    | false =>
      cases hqy : q y with
      | true => simp [updateFirst, hy, List.find?_cons, hqy]
      | false => simp [updateFirst, hy, List.find?_cons, hqy, ih]

theorem find?_key_eq_some {α κ : Type} [DecidableEq κ] (key : α → κ) (l : List α)
    (x : α) (k : κ) (hmem : x ∈ l) (hk : key x = k) (hnd : (l.map key).Nodup) :
    l.find? (fun y => decide (key y = k)) = some x := by
  induction l with
  | nil => cases hmem
  | cons y l ih =>
    rw [List.map_cons, List.nodup_cons] at hnd
    rcases List.mem_cons.mp hmem with rfl | hx
    · rw [List.find?_cons_of_pos _ (by simp [hk])]
    · have hky : ¬ key y = k := by
        intro h
        exact hnd.1 (by rw [h, ← hk]; exact List.mem_map_of_mem key hx)
      rw [List.find?_cons_of_neg _ (by simp [hky])]
      exact ih hx hnd.2

/-!
Effect of the service operations on lookups.
-/

theorem get_none_eq (store : Store) (sid : String) :
    get_verification_session store sid none = store.find? (fun t => decide (t.id = sid)) := by
  unfold get_verification_session
  congr 1
  funext t
  simp [session_query]

theorem find?_id_updateFirst_id (store : Store) (sid₀ sid : String)
    (g : VerificationSession → VerificationSession) (hg : ∀ t, (g t).id = t.id) :
    (updateFirst (fun t => decide (t.id = sid₀)) g store).find? (fun t => decide (t.id = sid)) =
      if sid = sid₀ then (store.find? (fun t => decide (t.id = sid))).map g
      else store.find? (fun t => decide (t.id = sid)) := by
  by_cases hsid : sid = sid₀
  · subst hsid
    rw [if_pos rfl]
    exact find?_updateFirst_same (fun t => by simp [hg t]) store
  · rw [if_neg hsid]
    refine find?_updateFirst_other (fun t => by simp [hg t]) (fun t ht => ?_) store
    have h1 : t.id = sid₀ := of_decide_eq_true ht
    have h2 : ¬ t.id = sid := by rw [h1]; exact fun h => hsid h.symm
    exact decide_eq_false h2

theorem find?_name_updateFirst_name (steps : List VerificationStep) (n₀ n : StepName)
    (f : VerificationStep → VerificationStep) (hf : ∀ st, (f st).name = st.name) :
    (updateFirst (fun st => decide (st.name = n₀)) f steps).find?
        (fun st => decide (st.name = n)) =
      if n = n₀ then (steps.find? (fun st => decide (st.name = n))).map f
      else steps.find? (fun st => decide (st.name = n)) := by
  by_cases hn : n = n₀
  · subst hn
    rw [if_pos rfl]
    exact find?_updateFirst_same (fun st => by simp [hf st]) steps
  · rw [if_neg hn]
    refine find?_updateFirst_other (fun st => by simp [hf st]) (fun st hst => ?_) steps
    have h1 : st.name = n₀ := of_decide_eq_true hst
    have h2 : ¬ st.name = n := by rw [h1]; exact fun h => hn h.symm
    exact decide_eq_false h2

theorem findStep_update_step_status (store : Store) (sid₀ : String) (n₀ : StepName)
    (status : VerificationStatus) (sc : Option Int) (mp : Option String)
    (sid : String) (n : StepName) :
    findStep (update_step_status store sid₀ n₀ status sc mp).2 sid n =
      if sid = sid₀ ∧ n = n₀ then
        (findStep store sid n).map (apply_step_update status sc mp)
      else findStep store sid n := by
  unfold update_step_status
  cases hfs : findStep store sid₀ n₀ with
  | none =>
    by_cases hc : sid = sid₀ ∧ n = n₀
    · obtain ⟨rfl, rfl⟩ := hc
      simp [hfs]
    · simp [if_neg hc]
  | some st =>
    simp only
    unfold findStep
    rw [find?_id_updateFirst_id store sid₀ sid
      (fun t =>
        { t with
          steps := updateFirst (fun s2 => decide (s2.name = n₀))
            (apply_step_update status sc mp) t.steps })
      (fun t => rfl)]
    by_cases hsid : sid = sid₀
    · subst hsid
      rw [if_pos rfl]
      cases hid : store.find? (fun t => decide (t.id = sid)) with
      | none =>
        by_cases hn : n = n₀ <;> simp [hn]
      | some T =>
        show List.find? (fun st => decide (st.name = n))
            (updateFirst (fun s2 => decide (s2.name = n₀))
              (apply_step_update status sc mp) T.steps) = _
        rw [find?_name_updateFirst_name T.steps n₀ n (apply_step_update status sc mp)
          (fun st => rfl)]
        by_cases hn : n = n₀
        · subst hn
          rw [if_pos rfl, if_pos (And.intro (by trivial) rfl)]
        · rw [if_neg hn, if_neg (by tauto)]
    · rw [if_neg hsid, if_neg (by tauto)]

theorem findStep_update_session_status (store : Store) (sid₀ sid : String) (n : StepName) :
    findStep (update_session_status store sid₀).2 sid n = findStep store sid n := by
  unfold update_session_status
  cases hget : get_verification_session store sid₀ none with
  | none => rfl
  | some t =>
    simp only
    split
    · rfl
    · unfold findStep
      rw [find?_id_updateFirst_id store sid₀ sid
        (fun u => { u with status := aggregate_status t.steps t.status }) (fun u => rfl)]
      by_cases hsid : sid = sid₀
      · subst hsid
        rw [if_pos rfl]
        cases hid : store.find? (fun u => decide (u.id = sid)) with
        | none => rfl
        | some T => rfl
      · rw [if_neg hsid]

theorem find?_id_isSome_update_step_status (store : Store) (sid₀ : String) (n₀ : StepName)
    (status : VerificationStatus) (sc : Option Int) (mp : Option String) (sid : String) :
    (((update_step_status store sid₀ n₀ status sc mp).2).find?
        (fun t => decide (t.id = sid))).isSome =
      (store.find? (fun t => decide (t.id = sid))).isSome := by
  unfold update_step_status
  cases hfs : findStep store sid₀ n₀ with
  | none => rfl
  | some st =>
    simp only
    rw [find?_id_updateFirst_id store sid₀ sid
      (fun t =>
        { t with
          steps := updateFirst (fun s2 => decide (s2.name = n₀))
            (apply_step_update status sc mp) t.steps })
      (fun t => rfl)]
    by_cases hsid : sid = sid₀
    · rw [if_pos hsid]
      cases store.find? (fun t => decide (t.id = sid)) with
      | none => rfl
      | some T => rfl
    · rw [if_neg hsid]

theorem fst_isSome_update_session_status (store : Store) (sid : String)
    (h : (store.find? (fun t => decide (t.id = sid))).isSome) :
    (update_session_status store sid).1.isSome := by
  unfold update_session_status
  rw [get_none_eq]
  cases hid : store.find? (fun t => decide (t.id = sid)) with
  | none => rw [hid] at h; cases h
  | some t =>
    simp only
    split <;> rfl

/-!
Localization of the operations to a freshly appended session: sessions
whose id differs are not touched.
-/

theorem get_append_fresh (store l₂ : Store) (sid : String) (uid : Option String)
    (h : ∀ t ∈ store, t.id ≠ sid) :
    get_verification_session (store ++ l₂) sid uid = get_verification_session l₂ sid uid := by
  unfold get_verification_session
  refine find?_append_of_forall (fun t ht => ?_)
  unfold session_query
  rw [decide_eq_false (h t ht), Bool.false_and]

theorem findStep_append_fresh (store l₂ : Store) (sid : String) (n : StepName)
    (h : ∀ t ∈ store, t.id ≠ sid) :
    findStep (store ++ l₂) sid n = findStep l₂ sid n := by
  unfold findStep
  rw [find?_append_of_forall (fun t ht => decide_eq_false (h t ht))]

theorem update_step_status_append_fresh (store l₂ : Store) (sid : String) (n : StepName)
    (status : VerificationStatus) (sc : Option Int) (mp : Option String)
    (h : ∀ t ∈ store, t.id ≠ sid) :
    (update_step_status (store ++ l₂) sid n status sc mp).2 =
      store ++ (update_step_status l₂ sid n status sc mp).2 := by
  unfold update_step_status
  rw [findStep_append_fresh store l₂ sid n h]
  cases hfs : findStep l₂ sid n with
  | none => rfl
  | some st =>
    simp only
    exact updateFirst_append_of_forall (fun t ht => decide_eq_false (h t ht))

theorem update_session_status_append_fresh (store l₂ : Store) (sid : String)
    (h : ∀ t ∈ store, t.id ≠ sid) :
    update_session_status (store ++ l₂) sid =
      ((update_session_status l₂ sid).1, store ++ (update_session_status l₂ sid).2) := by
  unfold update_session_status
  rw [get_append_fresh store l₂ sid none h]
  cases hget : get_verification_session l₂ sid none with
  | none => rfl
  | some t =>
    simp only
    split
    · rfl
    · rw [updateFirst_append_of_forall (fun u hu => decide_eq_false (h u hu))]

theorem submit_liveness_append_fresh (store l₂ : Store) (sid uid : String)
    (h : ∀ t ∈ store, t.id ≠ sid) :
    submit_liveness (store ++ l₂) sid uid =
      ((submit_liveness l₂ sid uid).1, store ++ (submit_liveness l₂ sid uid).2) := by
  unfold submit_liveness
  rw [get_append_fresh store l₂ sid (some uid) h]
  cases hget : get_verification_session l₂ sid (some uid) with
  | none => rfl
  | some t =>
    simp only
    rw [update_step_status_append_fresh store l₂ sid StepName.liveness
      VerificationStatus.in_progress none none h]
    rw [update_step_status_append_fresh store
      (update_step_status l₂ sid StepName.liveness VerificationStatus.in_progress none none).2
      sid StepName.liveness VerificationStatus.completed (some 95) none h]
    exact update_session_status_append_fresh store _ sid h

/-- Computation of `submit_liveness` on the store holding exactly one
fresh session with matching id and owner. -/
theorem submit_liveness_singleton (sid uid : String) :
    submit_liveness
      [{ id := sid, user_id := uid, status := VerificationStatus.pending,
         steps := fresh_steps }] sid uid =
      (some { id := sid, user_id := uid, status := VerificationStatus.pending,
              steps := completed_liveness_steps },
       [{ id := sid, user_id := uid, status := VerificationStatus.pending,
          steps := completed_liveness_steps }]) := by
  simp [submit_liveness, get_verification_session, session_query, update_step_status,
    findStep, update_session_status, updateFirst, fresh_steps, apply_step_update,
    aggregate_status, completed_liveness_steps, List.find?, get_none_eq]

/-!
Lemmas about lookups under the store well-formedness invariant.
-/

theorem get_some_find_id (store : Store) (sid uid : String) (t : VerificationSession)
    (hnd : (store.map VerificationSession.id).Nodup)
    (hget : get_verification_session store sid (some uid) = some t) :
    store.find? (fun u => decide (u.id = sid)) = some t := by
  unfold get_verification_session at hget
  have hmem := List.mem_of_find?_eq_some hget
  have hq := List.find?_some hget
  unfold session_query at hq
  rw [Bool.and_eq_true] at hq
  exact find?_key_eq_some VerificationSession.id store t sid hmem (of_decide_eq_true hq.1) hnd

theorem findStep_of_wf (store : Store) (sid uid : String) (t : VerificationSession)
    (n : StepName) (hwf : StoreWF store)
    (hget : get_verification_session store sid (some uid) = some t) :
    ∃ st, st ∈ t.steps ∧ st.name = n ∧ findStep store sid n = some st := by
  have hmem : t ∈ store := by
    unfold get_verification_session at hget
    exact List.mem_of_find?_eq_some hget
  obtain ⟨hndsteps, hall⟩ := hwf.2 t hmem
  obtain ⟨st, hst, hname⟩ := hall n
  refine ⟨st, hst, hname, ?_⟩
  unfold findStep
  rw [get_some_find_id store sid uid t hwf.1 hget]
  exact find?_key_eq_some VerificationStep.name t.steps st n hst hname hndsteps

/-!
Lemmas about the status aggregation.
-/

theorem aggregate_of_failed (steps : List VerificationStep) (old : VerificationStatus)
    (h : ∃ st ∈ steps, st.status = VerificationStatus.failed) :
    aggregate_status steps old = VerificationStatus.failed := by
  have h1 : (steps.any fun st => decide (st.status = VerificationStatus.failed)) = true := by
    simp only [List.any_eq_true, decide_eq_true_eq]
    exact h
  simp [aggregate_status, h1]

theorem aggregate_of_all_completed (steps : List VerificationStep) (old : VerificationStatus)
    (h : ∀ st ∈ steps, st.status = VerificationStatus.completed) :
    aggregate_status steps old = VerificationStatus.completed := by
  have h1 : (steps.any fun st => decide (st.status = VerificationStatus.failed)) = false := by
    simp only [List.any_eq_false, decide_eq_true_eq]
    intro st hst
    simp [h st hst]
  have h2 : (steps.all fun st => decide (st.status = VerificationStatus.completed)) = true := by
    simp only [List.all_eq_true, decide_eq_true_eq]
    exact h
  simp [aggregate_status, h1, h2]

theorem aggregate_of_in_progress (steps : List VerificationStep) (old : VerificationStatus)
    (hf : ∀ st ∈ steps, st.status ≠ VerificationStatus.failed)
    (hc : ¬ ∀ st ∈ steps, st.status = VerificationStatus.completed)
    (hip : ∃ st ∈ steps, st.status = VerificationStatus.in_progress) :
    aggregate_status steps old = VerificationStatus.in_progress := by
  have h1 : (steps.any fun st => decide (st.status = VerificationStatus.failed)) = false := by
    simp only [List.any_eq_false, decide_eq_true_eq]
    exact hf
  have h2 : (steps.all fun st => decide (st.status = VerificationStatus.completed)) = false := by
    cases hb : steps.all fun st => decide (st.status = VerificationStatus.completed) with
    | false => rfl
    | true =>
      exact absurd (fun st hst =>
        of_decide_eq_true (List.all_eq_true.mp hb st hst)) hc
  have h3 : (steps.any fun st => decide (st.status = VerificationStatus.in_progress)) = true := by
    simp only [List.any_eq_true, decide_eq_true_eq]
    exact hip
  simp [aggregate_status, h1, h2, h3]

theorem aggregate_of_all_pending (steps : List VerificationStep) (old : VerificationStatus)
    (hne : steps ≠ [])
    (h : ∀ st ∈ steps, st.status = VerificationStatus.pending) :
    aggregate_status steps old = old := by
  obtain ⟨st₀, hst₀⟩ := List.exists_mem_of_ne_nil steps hne
  have h1 : (steps.any fun st => decide (st.status = VerificationStatus.failed)) = false := by
    simp only [List.any_eq_false, decide_eq_true_eq]
    intro st hst
    simp [h st hst]
  have h2 : (steps.all fun st => decide (st.status = VerificationStatus.completed)) = false := by
    cases hb : steps.all fun st => decide (st.status = VerificationStatus.completed) with
    | false => rfl
    | true =>
      have := of_decide_eq_true (List.all_eq_true.mp hb st₀ hst₀)
      rw [h st₀ hst₀] at this
      cases this
  have h3 : (steps.any fun st => decide (st.status = VerificationStatus.in_progress)) = false := by
    simp only [List.any_eq_false, decide_eq_true_eq]
    intro st hst
    simp [h st hst]
  simp [aggregate_status, h1, h2, h3]

theorem submit_document_fst_isSome (store : Store) (sid uid dt : String)
    (h : (get_verification_session store sid (some uid)).isSome) :
    (submit_document store sid uid dt).1.isSome := by
  rw [Option.isSome_iff_exists] at h
  obtain ⟨t, ht⟩ := h
  have h0 : (store.find? (fun u => decide (u.id = sid))).isSome := by
    unfold get_verification_session at ht
    have hmem := List.mem_of_find?_eq_some ht
    have hq := List.find?_some ht
    unfold session_query at hq
    rw [Bool.and_eq_true] at hq
    exact List.find?_isSome.mpr ⟨t, hmem, hq.1⟩
  unfold submit_document
  rw [ht]
  apply fst_isSome_update_session_status
  split
  all_goals try split
  all_goals simp only [find?_id_isSome_update_step_status]
  all_goals exact h0

/-!
Claims.
-/

/-- C1: for every session with a non-empty step set, after
`update_session_status` the session status follows the priority order of
the specification: any failed step gives Failed; else all steps completed
gives Completed; else any step in progress gives InProgress; else (in
particular when all steps are pending) the status remains what it was, so
an all-pending session remains Pending. -/
theorem claim1_session_status_aggregation (store : Store) (sid : String)
    (t : VerificationSession)
    (hget : get_verification_session store sid none = some t)
    (hne : t.steps ≠ []) :
    ((∃ st ∈ t.steps, st.status = VerificationStatus.failed) →
      (update_session_status store sid).1.map VerificationSession.status =
        some VerificationStatus.failed) ∧
    ((∀ st ∈ t.steps, st.status = VerificationStatus.completed) →
      (update_session_status store sid).1.map VerificationSession.status =
        some VerificationStatus.completed) ∧
    ((∀ st ∈ t.steps, st.status ≠ VerificationStatus.failed) →
      (¬ ∀ st ∈ t.steps, st.status = VerificationStatus.completed) →
      (∃ st ∈ t.steps, st.status = VerificationStatus.in_progress) →
      (update_session_status store sid).1.map VerificationSession.status =
        some VerificationStatus.in_progress) ∧
    ((∀ st ∈ t.steps, st.status = VerificationStatus.pending) →
      (update_session_status store sid).1.map VerificationSession.status =
        some t.status) := by
  have hmain : (update_session_status store sid).1 =
      some { t with status := aggregate_status t.steps t.status } := by
    unfold update_session_status
    rw [hget]
    dsimp only
    rw [if_neg (fun hemp => hne (List.isEmpty_iff.mp hemp))]
  rw [hmain]
  refine ⟨fun h => ?_, fun h => ?_, fun h1 h2 h3 => ?_, fun h => ?_⟩
  · show some (aggregate_status t.steps t.status) = some VerificationStatus.failed
    rw [aggregate_of_failed t.steps t.status h]
  · show some (aggregate_status t.steps t.status) = some VerificationStatus.completed
    rw [aggregate_of_all_completed t.steps t.status h]
  · show some (aggregate_status t.steps t.status) = some VerificationStatus.in_progress
    rw [aggregate_of_in_progress t.steps t.status h1 h2 h3]
  · show some (aggregate_status t.steps t.status) = some t.status
    rw [aggregate_of_all_pending t.steps t.status hne h]

/-- C1 witness: on a concrete store whose session has a failed step, the
aggregated status is Failed. -/
theorem claim1_witness :
    (update_session_status storeA "s1").1.map VerificationSession.status =
      some VerificationStatus.failed :=
  (claim1_session_status_aggregation storeA "s1" sessionA (by decide) (by decide)).1
    ⟨{ name := StepName.liveness, status := VerificationStatus.failed,
       score := none, media_path := none }, by decide, rfl⟩

/-- C2 counterexample: on a freshly created session, `submit_liveness`
leaves the overall session status Pending — not InProgress as claimed —
because the Liveness step is already Completed when the aggregation runs
and no step is InProgress at that point. -/
theorem claim2_counterexample :
    ((submit_liveness (create_verification_session [] "s1" "u1") "s1" "u1").1.map
        VerificationSession.status) = some VerificationStatus.pending ∧
    ((submit_liveness (create_verification_session [] "s1" "u1") "s1" "u1").1.map
        VerificationSession.status) ≠ some VerificationStatus.in_progress := by
  constructor
  · decide
  · decide

/-- C2 amended: on every freshly created session, `submit_liveness` sets
the Liveness step to Completed with score 95 and leaves the other four
steps Pending, but the overall session status remains Pending (the
aggregator sees no Failed, not all Completed and no InProgress step). -/
theorem claim2_liveness_pending (store : Store) (sid uid : String)
    (hfresh : ∀ t ∈ store, t.id ≠ sid) :
    (submit_liveness (create_verification_session store sid uid) sid uid).1.map
        VerificationSession.status = some VerificationStatus.pending ∧
    step_status (submit_liveness (create_verification_session store sid uid) sid uid).2
        sid StepName.liveness = some VerificationStatus.completed ∧
    step_score (submit_liveness (create_verification_session store sid uid) sid uid).2
        sid StepName.liveness = some (some 95) ∧
    step_status (submit_liveness (create_verification_session store sid uid) sid uid).2
        sid StepName.document_front = some VerificationStatus.pending ∧
    step_status (submit_liveness (create_verification_session store sid uid) sid uid).2
        sid StepName.document_back = some VerificationStatus.pending ∧
    step_status (submit_liveness (create_verification_session store sid uid) sid uid).2
        sid StepName.face_match = some VerificationStatus.pending ∧
    step_status (submit_liveness (create_verification_session store sid uid) sid uid).2
        sid StepName.digilocker = some VerificationStatus.pending := by
  unfold create_verification_session
  rw [submit_liveness_append_fresh store _ sid uid hfresh, submit_liveness_singleton sid uid]
  dsimp only
  refine ⟨rfl, ?_, ?_, ?_, ?_, ?_, ?_⟩
  all_goals
    simp only [step_status, step_score]
    rw [findStep_append_fresh _ _ _ _ hfresh]
    simp [findStep, completed_liveness_steps, List.find?]

/-- C2 amended witness: concrete instance on the empty store. -/
theorem claim2_witness :
    (submit_liveness (create_verification_session [] "s2" "u2") "s2" "u2").1.map
      VerificationSession.status = some VerificationStatus.pending :=
  (claim2_liveness_pending [] "s2" "u2" (fun t ht => absurd ht (List.not_mem_nil t))).1

/-- C5: every session-mutating operation invoked with an unknown session
id, or one not owned by the given (non-empty) user id, returns the
not-found sentinel `None` and leaves the store unchanged — no partial
writes. -/
theorem claim5_not_found_no_change (store : Store) (sid uid : String) (huid : uid ≠ "")
    (hno : ∀ t ∈ store, ¬(t.id = sid ∧ t.user_id = uid)) :
    submit_liveness store sid uid = (none, store) ∧
    (∀ document_type, submit_document store sid uid document_type = (none, store)) ∧
    connect_digilocker store sid uid = (none, store) ∧
    submit_session store sid uid = (none, store) := by
  have hget : get_verification_session store sid (some uid) = none := by
    unfold get_verification_session
    refine List.find?_eq_none.mpr (fun t ht hq => ?_)
    simp only [session_query, Bool.and_eq_true, decide_eq_true_eq, huid, if_false] at hq
    exact hno t ht hq
  refine ⟨?_, fun dt => ?_, ?_, ?_⟩
  · unfold submit_liveness
    rw [hget]
  · unfold submit_document
    rw [hget]
  · unfold connect_digilocker
    rw [hget]
  · unfold submit_session
    rw [hget]

/-- C5 witness: concrete store, caller who does not own the session. -/
theorem claim5_witness :
    submit_liveness storeB "s1" "u2" = (none, storeB) :=
  (claim5_not_found_no_change storeB "s1" "u2" (by decide) (by decide)).1

/-- C9: `update_step_status` called with `score = None` leaves the stored
score unchanged, and called with `media_path = None` leaves the stored
media reference unchanged. -/
theorem claim9_none_preserves_score_media (store : Store) (sid : String) (n : StepName)
    (status : VerificationStatus) (sc : Option Int) (mp : Option String)
    (st : VerificationStep) (hstep : findStep store sid n = some st) :
    (sc = none → step_score (update_step_status store sid n status sc mp).2 sid n =
      some st.score) ∧
    (mp = none → step_media (update_step_status store sid n status sc mp).2 sid n =
      some st.media_path) := by
  have hfind : findStep (update_step_status store sid n status sc mp).2 sid n =
      some (apply_step_update status sc mp st) := by
    rw [findStep_update_step_status store sid n status sc mp sid n, if_pos ⟨rfl, rfl⟩, hstep]
    rfl
  constructor
  · intro hsc
    subst hsc
    simp only [step_score]
    rw [hfind]
    rfl
  · intro hmp
    subst hmp
    simp only [step_media]
    rw [hfind]
    rfl

/-- C9 witness: updating the pending Liveness step of a fresh session with
no score and no media keeps both fields empty. -/
theorem claim9_witness :
    step_score (update_step_status storeB "s1" StepName.liveness
        VerificationStatus.completed none none).2 "s1" StepName.liveness = some none :=
  (claim9_none_preserves_score_media storeB "s1" StepName.liveness
      VerificationStatus.completed none none
      { name := StepName.liveness, status := VerificationStatus.pending,
        score := none, media_path := none } (by decide)).1 rfl

/-- C10: every `document_type` other than exactly "front" (for example
"Front" or the empty string) makes `submit_document` behave exactly as a
Document (Back) submission — the input is not rejected, and only the exact
string "front" selects the DocumentFront step. -/
theorem claim10_document_type_dispatch (store : Store) (sid uid document_type : String)
    (hdt : document_type ≠ "front") :
    submit_document store sid uid document_type = submit_document store sid uid "back" ∧
    ((get_verification_session store sid (some uid)).isSome →
      (submit_document store sid uid document_type).1.isSome) := by
  constructor
  · unfold submit_document
    cases hget : get_verification_session store sid (some uid) with
    | none => rfl
    | some t =>
      simp only
      rw [if_neg hdt, if_neg (show ¬ ("back" : String) = "front" by decide)]
  · exact submit_document_fst_isSome store sid uid document_type

/-- C10 witness: "Front" (capitalised) is routed to the back-document
path. -/
theorem claim10_witness :
    submit_document storeB "s1" "u1" "Front" = submit_document storeB "s1" "u1" "back" :=
  (claim10_document_type_dispatch storeB "s1" "u1" "Front" (by decide)).1

theorem findStep_isSome_update_step_status (store : Store) (sid₀ : String) (n₀ : StepName)
    (status : VerificationStatus) (sc : Option Int) (mp : Option String)
    (sid : String) (n : StepName) (h : (findStep store sid n).isSome) :
    (findStep (update_step_status store sid₀ n₀ status sc mp).2 sid n).isSome := by
  rw [findStep_update_step_status]
  split
  · cases hx : findStep store sid n with
    | none => rw [hx] at h; cases h
    | some x => rfl
  · exact h

/-- C3: after any `submit_document` call on an owned session, if both
document steps end up Completed then the Face Match step has been set to
Completed with score 88; otherwise the Face Match step row is exactly what
it was before the call. -/
theorem claim3_face_match_auto (store : Store) (sid uid document_type : String)
    (t : VerificationSession) (hwf : StoreWF store)
    (hget : get_verification_session store sid (some uid) = some t) :
    ((step_status (submit_document store sid uid document_type).2 sid
          StepName.document_front = some VerificationStatus.completed ∧
      step_status (submit_document store sid uid document_type).2 sid
          StepName.document_back = some VerificationStatus.completed) →
      step_status (submit_document store sid uid document_type).2 sid
          StepName.face_match = some VerificationStatus.completed ∧
      step_score (submit_document store sid uid document_type).2 sid
          StepName.face_match = some (some 88)) ∧
    (¬(step_status (submit_document store sid uid document_type).2 sid
          StepName.document_front = some VerificationStatus.completed ∧
       step_status (submit_document store sid uid document_type).2 sid
          StepName.document_back = some VerificationStatus.completed) →
      findStep (submit_document store sid uid document_type).2 sid StepName.face_match =
        findStep store sid StepName.face_match) := by
  obtain ⟨fm0, hfm0mem, hfm0name, hfm0⟩ :=
    findStep_of_wf store sid uid t StepName.face_match hwf hget
  obtain ⟨f0, hf0mem, hf0name, hf0⟩ :=
    findStep_of_wf store sid uid t StepName.document_front hwf hget
  obtain ⟨b0, hb0mem, hb0name, hb0⟩ :=
    findStep_of_wf store sid uid t StepName.document_back hwf hget
  unfold submit_document
  rw [hget]
  dsimp only
  set sn := if document_type = "front" then StepName.document_front
    else StepName.document_back with hsn
  have hsn_ne : sn ≠ StepName.face_match := by
    rw [hsn]
    by_cases h : document_type = "front"
    · rw [if_pos h]; decide
    · rw [if_neg h]; decide
  set S1 := (update_step_status store sid sn VerificationStatus.in_progress none none).2
    with hS1
  set S2 := (update_step_status S1 sid sn VerificationStatus.completed (some 90) none).2
    with hS2
  have hface2 : findStep S2 sid StepName.face_match = some fm0 := by
    rw [hS2, findStep_update_step_status, if_neg (fun hc => hsn_ne hc.2.symm)]
    rw [hS1, findStep_update_step_status, if_neg (fun hc => hsn_ne hc.2.symm)]
    exact hfm0
  have hfront2 : (findStep S2 sid StepName.document_front).isSome := by
    rw [hS2]
    apply findStep_isSome_update_step_status
    rw [hS1]
    apply findStep_isSome_update_step_status
    rw [hf0]
    rfl
  have hback2 : (findStep S2 sid StepName.document_back).isSome := by
    rw [hS2]
    apply findStep_isSome_update_step_status
    rw [hS1]
    apply findStep_isSome_update_step_status
    rw [hb0]
    rfl
  obtain ⟨f2, hf2⟩ := Option.isSome_iff_exists.mp hfront2
  obtain ⟨b2, hb2⟩ := Option.isSome_iff_exists.mp hback2
  rw [hf2, hb2]
  dsimp only
  by_cases hcond : f2.status = VerificationStatus.completed ∧
      b2.status = VerificationStatus.completed
  · rw [if_pos hcond]
    have hfaceF : findStep (update_session_status
        (update_step_status S2 sid StepName.face_match VerificationStatus.completed
          (some 88) none).2 sid).2 sid StepName.face_match =
        some (apply_step_update VerificationStatus.completed (some 88) none fm0) := by
      rw [findStep_update_session_status, findStep_update_step_status,
        if_pos ⟨rfl, rfl⟩, hface2]
      rfl
    have hfrontF : findStep (update_session_status
        (update_step_status S2 sid StepName.face_match VerificationStatus.completed
          (some 88) none).2 sid).2 sid StepName.document_front = some f2 := by
      rw [findStep_update_session_status, findStep_update_step_status,
        if_neg (fun hc => by cases hc.2), hf2]
    have hbackF : findStep (update_session_status
        (update_step_status S2 sid StepName.face_match VerificationStatus.completed
          (some 88) none).2 sid).2 sid StepName.document_back = some b2 := by
      rw [findStep_update_session_status, findStep_update_step_status,
        if_neg (fun hc => by cases hc.2), hb2]
    constructor
    · intro _
      constructor
      · simp only [step_status]
        rw [hfaceF]
        rfl
      · simp only [step_score]
        rw [hfaceF]
        rfl
    · intro hnc
      refine absurd ⟨?_, ?_⟩ hnc
      · simp only [step_status]
        rw [hfrontF]
        simp [hcond.1]
      · simp only [step_status]
        rw [hbackF]
        simp [hcond.2]
  · rw [if_neg hcond]
    have hfaceF : findStep (update_session_status S2 sid).2 sid StepName.face_match =
        some fm0 := by
      rw [findStep_update_session_status]
      exact hface2
    have hfrontF : findStep (update_session_status S2 sid).2 sid StepName.document_front =
        some f2 := by
      rw [findStep_update_session_status]
      exact hf2
    have hbackF : findStep (update_session_status S2 sid).2 sid StepName.document_back =
        some b2 := by
      rw [findStep_update_session_status]
      exact hb2
    constructor
    · intro hboth
      exfalso
      apply hcond
      constructor
      · have h1 := hboth.1
        simp only [step_status] at h1
        rw [hfrontF] at h1
        simpa using h1
      · have h1 := hboth.2
        simp only [step_status] at h1
        rw [hbackF] at h1
        simpa using h1
    · intro _
      rw [hfaceF, hfm0]

/-- C3 witness: submitting only the front document on a fresh session
leaves the Face Match step untouched. -/
theorem claim3_witness :
    findStep (submit_document storeB "s1" "u1" "front").2 "s1" StepName.face_match =
      findStep storeB "s1" StepName.face_match :=
  (claim3_face_match_auto storeB "s1" "u1" "front" sessionB (by decide) (by decide)).2
    (by decide)

theorem countP_required_iff (steps : List VerificationStep)
    (hnd : (steps.map VerificationStep.name).Nodup) :
    (required_steps.length ≤ steps.countP fun st =>
        decide (st.name ∈ required_steps) &&
          decide (st.status = VerificationStatus.completed)) ↔
      ∀ n ∈ required_steps, ∃ st ∈ steps, st.name = n ∧
        st.status = VerificationStatus.completed := by
  have hLnd : ((steps.filter fun st =>
      decide (st.name ∈ required_steps) &&
        decide (st.status = VerificationStatus.completed)).map
        VerificationStep.name).Nodup :=
    hnd.sublist (List.Sublist.map VerificationStep.name (List.filter_sublist steps))
  constructor
  · intro hc n hn
    have hLsub : (steps.filter fun st =>
        decide (st.name ∈ required_steps) &&
          decide (st.status = VerificationStatus.completed)).map
          VerificationStep.name ⊆ required_steps := by
      intro m hm
      obtain ⟨st, hstf, hname⟩ := List.mem_map.mp hm
      have hpst := (List.mem_filter.mp hstf).2
      simp only [Bool.and_eq_true, decide_eq_true_eq] at hpst
      exact hname ▸ hpst.1
    have hsp := hLnd.subperm hLsub
    have hperm := hsp.perm_of_length_le (by
      rw [List.length_map, ← List.countP_eq_length_filter]
      exact hc)
    obtain ⟨st, hstf, hname⟩ := List.mem_map.mp (hperm.mem_iff.mpr hn)
    have hmf := List.mem_filter.mp hstf
    have hpst := hmf.2
    simp only [Bool.and_eq_true, decide_eq_true_eq] at hpst
    exact ⟨st, hmf.1, hname, hpst.2⟩
  · intro hall
    have hreqsub : required_steps ⊆ (steps.filter fun st =>
        decide (st.name ∈ required_steps) &&
          decide (st.status = VerificationStatus.completed)).map
          VerificationStep.name := by
      intro n hn
      obtain ⟨st, hmem, hname, hcomp⟩ := hall n hn
      refine List.mem_map.mpr ⟨st, List.mem_filter.mpr ⟨hmem, ?_⟩, hname⟩
      simp [hname, hn, hcomp]
    have hreqnd : required_steps.Nodup := by decide
    have hlen := (hreqnd.subperm hreqsub).length_le
    rw [List.length_map, ← List.countP_eq_length_filter] at hlen
    exact hlen

/-- C4: `submit_session` forces the session status to Completed exactly
when the Liveness, DocumentFront, DocumentBack and FaceMatch steps are all
Completed (DigiLocker irrelevant); when the precondition fails it changes
nothing, raises no error, and returns the session as is. -/
theorem claim4_submit_session_force (store : Store) (sid uid : String)
    (t : VerificationSession) (hwf : StoreWF store)
    (hget : get_verification_session store sid (some uid) = some t) :
    ((step_status store sid StepName.liveness = some VerificationStatus.completed ∧
      step_status store sid StepName.document_front = some VerificationStatus.completed ∧
      step_status store sid StepName.document_back = some VerificationStatus.completed ∧
      step_status store sid StepName.face_match = some VerificationStatus.completed) →
      submit_session store sid uid =
        (some { t with status := VerificationStatus.completed },
         updateFirst (fun u => decide (u.id = sid))
           (fun u => { u with status := VerificationStatus.completed }) store)) ∧
    (¬(step_status store sid StepName.liveness = some VerificationStatus.completed ∧
       step_status store sid StepName.document_front = some VerificationStatus.completed ∧
       step_status store sid StepName.document_back = some VerificationStatus.completed ∧
       step_status store sid StepName.face_match = some VerificationStatus.completed) →
      submit_session store sid uid = (some t, store)) := by
  have hid := get_some_find_id store sid uid t hwf.1 hget
  have hmemt : t ∈ store := by
    unfold get_verification_session at hget
    exact List.mem_of_find?_eq_some hget
  have hndsteps := (hwf.2 t hmemt).1
  have hiff := countP_required_iff t.steps hndsteps
  have hstep : ∀ n, step_status store sid n =
      (t.steps.find? (fun st => decide (st.name = n))).map VerificationStep.status := by
    intro n
    simp only [step_status]
    unfold findStep
    rw [hid]
  have hback : ∀ n, step_status store sid n = some VerificationStatus.completed →
      ∃ st ∈ t.steps, st.name = n ∧ st.status = VerificationStatus.completed := by
    intro n h
    rw [hstep n] at h
    cases hfind : t.steps.find? (fun st => decide (st.name = n)) with
    | none => rw [hfind] at h; cases h
    | some st =>
      rw [hfind] at h
      have h1 : st.status = VerificationStatus.completed := by simpa using h
      have hname : st.name = n := by simpa using List.find?_some hfind
      exact ⟨st, List.mem_of_find?_eq_some hfind, hname, h1⟩
  have hlink : (step_status store sid StepName.liveness = some VerificationStatus.completed ∧
      step_status store sid StepName.document_front = some VerificationStatus.completed ∧
      step_status store sid StepName.document_back = some VerificationStatus.completed ∧
      step_status store sid StepName.face_match = some VerificationStatus.completed) ↔
      ∀ n ∈ required_steps, ∃ st ∈ t.steps, st.name = n ∧
        st.status = VerificationStatus.completed := by
    constructor
    · rintro ⟨h1, h2, h3, h4⟩ n hn
      simp only [required_steps, List.mem_cons, List.not_mem_nil, or_false] at hn
      rcases hn with rfl | rfl | rfl | rfl
      · exact hback _ h1
      · exact hback _ h2
      · exact hback _ h3
      · exact hback _ h4
    · intro hall
      refine ⟨?_, ?_, ?_, ?_⟩
      · obtain ⟨st, hmem, hname, hcomp⟩ := hall StepName.liveness (by decide)
        rw [hstep, find?_key_eq_some VerificationStep.name t.steps st _ hmem hname hndsteps]
        simp [hcomp]
      · obtain ⟨st, hmem, hname, hcomp⟩ := hall StepName.document_front (by decide)
        rw [hstep, find?_key_eq_some VerificationStep.name t.steps st _ hmem hname hndsteps]
        simp [hcomp]
      · obtain ⟨st, hmem, hname, hcomp⟩ := hall StepName.document_back (by decide)
        rw [hstep, find?_key_eq_some VerificationStep.name t.steps st _ hmem hname hndsteps]
        simp [hcomp]
      · obtain ⟨st, hmem, hname, hcomp⟩ := hall StepName.face_match (by decide)
        rw [hstep, find?_key_eq_some VerificationStep.name t.steps st _ hmem hname hndsteps]
        simp [hcomp]
  unfold submit_session
  rw [hget]
  dsimp only
  constructor
  · intro hall4
    rw [if_pos (hiff.mpr (hlink.mp hall4))]
  · intro hnall
    rw [if_neg (fun hc => hnall (hlink.mpr (hiff.mp hc)))]

/-- C4 witness: with the four required steps completed and DigiLocker
pending, the explicit submit forces the session Completed. -/
theorem claim4_witness :
    submit_session storeC "s1" "u1" =
      (some { sessionC with status := VerificationStatus.completed },
       updateFirst (fun u => decide (u.id = "s1"))
         (fun u => { u with status := VerificationStatus.completed }) storeC) :=
  (claim4_submit_session_force storeC "s1" "u1" sessionC (by decide) (by decide)).1
    ⟨by decide, by decide, by decide, by decide⟩

/-!
Bounds for the binary64 rounding model, leading to the trust-score total
claims.
-/

theorem bitLenAux_le : ∀ (f n k : Nat), n < 2 ^ k → bitLenAux f n ≤ k := by
  intro f
  induction f with
  | zero => intro n k _; exact Nat.zero_le k
  | succ f ih =>
    intro n k h
    show (if n = 0 then 0 else bitLenAux f (n / 2) + 1) ≤ k
    by_cases hn : n = 0
    · rw [if_pos hn]; exact Nat.zero_le k
    · rw [if_neg hn]
      have hk : k ≠ 0 := by
        intro hk0
        rw [hk0, pow_zero] at h
        omega
      have hsp : k - 1 + 1 = k := Nat.succ_pred_eq_of_pos (Nat.pos_of_ne_zero hk)
      have hpow : 2 ^ k = 2 ^ (k - 1) * 2 := by
        have h2 : (2 : Nat) ^ (k - 1 + 1) = 2 ^ (k - 1) * 2 := pow_succ 2 (k - 1)
        rw [hsp] at h2
        exact h2
      have h2 : n / 2 < 2 ^ (k - 1) := by omega
      have h3 := ih (n / 2) (k - 1) h2
      omega

theorem bitLen_le (n k : Nat) (h : n < 2 ^ k) : bitLen n ≤ k :=
  bitLenAux_le 64 n k h

theorem roundMant_bounds (n : Nat) (h : n < 2 ^ 62) :
    roundMant n ≤ n + 256 ∧ n ≤ roundMant n + 256 := by
  unfold roundMant
  by_cases hb : bitLen n ≤ 53
  · rw [if_pos hb]
    omega
  · rw [if_neg hb]
    have hble : bitLen n ≤ 62 := bitLen_le n 62 h
    have hs1 : 1 ≤ bitLen n - 53 := by omega
    have hs9 : bitLen n - 53 ≤ 9 := by omega
    have hH : 2 ^ (bitLen n - 53 - 1) ≤ 256 := by
      calc 2 ^ (bitLen n - 53 - 1) ≤ 2 ^ 8 :=
        Nat.pow_le_pow_right (by norm_num) (by omega)
      _ = 256 := by norm_num
    have hsp : bitLen n - 53 - 1 + 1 = bitLen n - 53 := Nat.succ_pred_eq_of_pos hs1
    have hP : 2 ^ (bitLen n - 53) = 2 ^ (bitLen n - 53 - 1) * 2 := by
      have h2 : (2 : Nat) ^ (bitLen n - 53 - 1 + 1) = 2 ^ (bitLen n - 53 - 1) * 2 :=
        pow_succ 2 (bitLen n - 53 - 1)
      rw [hsp] at h2
      exact h2
    have hPpos : 0 < 2 ^ (bitLen n - 53) := pow_pos (by norm_num) _
    have hdm : 2 ^ (bitLen n - 53) * (n / 2 ^ (bitLen n - 53)) + n % 2 ^ (bitLen n - 53) = n :=
      Nat.div_add_mod n (2 ^ (bitLen n - 53))
    have hmlt : n % 2 ^ (bitLen n - 53) < 2 ^ (bitLen n - 53) := Nat.mod_lt n hPpos
    split_ifs with h1 h2 h3
    · constructor
      · rw [Nat.mul_comm]
        omega
      · rw [Nat.mul_comm]
        omega
    · constructor
      · rw [Nat.succ_mul, Nat.mul_comm]
        omega
      · rw [Nat.succ_mul, Nat.mul_comm]
        omega
    · have hr : n % 2 ^ (bitLen n - 53) = 2 ^ (bitLen n - 53 - 1) :=
        Nat.le_antisymm (Nat.not_lt.mp h2) (Nat.not_lt.mp h1)
      constructor
      · rw [Nat.mul_comm]
        omega
      · rw [Nat.mul_comm]
        omega
    · have hr : n % 2 ^ (bitLen n - 53) = 2 ^ (bitLen n - 53 - 1) :=
        Nat.le_antisymm (Nat.not_lt.mp h2) (Nat.not_lt.mp h1)
      constructor
      · rw [Nat.succ_mul, Nat.mul_comm]
        omega
      · rw [Nat.succ_mul, Nat.mul_comm]
        omega

theorem total_score_bounds (i a r : Nat) (hi : i ≤ 100) (ha : a ≤ 100) (hr : r ≤ 100) :
    18014398509481984 * total_score i a r ≤
      i * 7205759403792794 + a * 5404319552844595 + r * 5404319552844595 + 1280 ∧
    i * 7205759403792794 + a * 5404319552844595 + r * 5404319552844595 ≤
      18014398509481984 * total_score i a r + 18014398509481984 + 1279 := by
  have hc4 : c4n = 7205759403792794 := rfl
  have hc3 : c3n = 5404319552844595 := rfl
  have h62 : (2 : Nat) ^ 62 = 4611686018427387904 := by norm_num
  have h54 : (2 : Nat) ^ 54 = 18014398509481984 := by norm_num
  have h1 : i * c4n < 2 ^ 62 := by
    calc i * c4n ≤ 100 * c4n := Nat.mul_le_mul_right c4n hi
    _ < 2 ^ 62 := by norm_num [c4n]
  have h2 : a * c3n < 2 ^ 62 := by
    calc a * c3n ≤ 100 * c3n := Nat.mul_le_mul_right c3n ha
    _ < 2 ^ 62 := by norm_num [c3n]
  have h3 : r * c3n < 2 ^ 62 := by
    calc r * c3n ≤ 100 * c3n := Nat.mul_le_mul_right c3n hr
    _ < 2 ^ 62 := by norm_num [c3n]
  obtain ⟨ht1u, ht1l⟩ := roundMant_bounds (i * c4n) h1
  obtain ⟨ht2u, ht2l⟩ := roundMant_bounds (a * c3n) h2
  obtain ⟨ht3u, ht3l⟩ := roundMant_bounds (r * c3n) h3
  have h4 : roundMant (i * c4n) + roundMant (a * c3n) < 2 ^ 62 := by
    rw [hc4, h62] at *
    rw [hc3] at *
    omega
  obtain ⟨hs1u, hs1l⟩ := roundMant_bounds (roundMant (i * c4n) + roundMant (a * c3n)) h4
  have h5 : roundMant (roundMant (i * c4n) + roundMant (a * c3n)) + roundMant (r * c3n) <
      2 ^ 62 := by
    rw [hc4, h62] at *
    rw [hc3] at *
    omega
  obtain ⟨hs2u, hs2l⟩ :=
    roundMant_bounds
      (roundMant (roundMant (i * c4n) + roundMant (a * c3n)) + roundMant (r * c3n)) h5
  unfold total_score
  rw [hc4, hc3, h54] at *
  omega

/-- C6 counterexample: at the sub-score triple (0, 1, 9) the code computes
`int(0*0.4 + 1*0.3 + 9*0.3) = int(2.9999999999999996) = 2` while the exact
floor of the weighted sum is 3, so the claimed equality with the exact
floor fails. -/
theorem claim6_counterexample :
    total_score 0 1 9 = 2 ∧ (4 * 0 + 3 * 1 + 3 * 9) / 10 = 3 ∧
    total_score 0 1 9 ≠ (4 * 0 + 3 * 1 + 3 * 9) / 10 := by
  refine ⟨by decide, by decide, by decide⟩

/-- C6 amended: the total is the binary64 evaluation of the weighted sum
truncated by `int`; for sub-scores in `[0, 100]` it is an integer in
`[0, 100]` and equals `floor((4i + 3a + 3r) / 10)` or that value minus
one (the float evaluation can land just below an exact multiple of 1/10);
the scenario identity 0, activity 0, reputation 100 yields exactly 30. -/
theorem claim6_float_total :
    total_score 0 0 100 = 30 ∧
    ∀ i a r : Nat, i ≤ 100 → a ≤ 100 → r ≤ 100 →
      total_score i a r ≤ 100 ∧
      total_score i a r ≤ (4 * i + 3 * a + 3 * r) / 10 ∧
      (4 * i + 3 * a + 3 * r) / 10 ≤ total_score i a r + 1 := by
  constructor
  · decide
  · intro i a r hi ha hr
    obtain ⟨hub, hlb⟩ := total_score_bounds i a r hi ha hr
    refine ⟨by omega, by omega, by omega⟩

/-- C6 witness: concrete instance of the amended bounds. -/
theorem claim6_witness :
    total_score 7 8 9 ≤ 100 ∧
    total_score 7 8 9 ≤ (4 * 7 + 3 * 8 + 3 * 9) / 10 ∧
    (4 * 7 + 3 * 8 + 3 * 9) / 10 ≤ total_score 7 8 9 + 1 :=
  claim6_float_total.2 7 8 9 (by decide) (by decide) (by decide)

/-- C7: the total trust score is monotonically non-decreasing in each
sub-score individually over the sub-score domain `[0, 100]`. -/
theorem claim7_total_monotone :
    ∀ i i2 a a2 r r2 : Nat, i ≤ 100 → a ≤ 100 → r ≤ 100 →
      (i ≤ i2 → i2 ≤ 100 → total_score i a r ≤ total_score i2 a r) ∧
      (a ≤ a2 → a2 ≤ 100 → total_score i a r ≤ total_score i a2 r) ∧
      (r ≤ r2 → r2 ≤ 100 → total_score i a r ≤ total_score i a r2) := by
  intro i i2 a a2 r r2 hi ha hr
  refine ⟨fun h1 h2 => ?_, fun h1 h2 => ?_, fun h1 h2 => ?_⟩
  · rcases Nat.eq_or_lt_of_le h1 with heq | hlt
    · rw [heq]
    · obtain ⟨hub, hlb⟩ := total_score_bounds i a r hi ha hr
      obtain ⟨hub2, hlb2⟩ := total_score_bounds i2 a r h2 ha hr
      omega
  · rcases Nat.eq_or_lt_of_le h1 with heq | hlt
    · rw [heq]
    · obtain ⟨hub, hlb⟩ := total_score_bounds i a r hi ha hr
      obtain ⟨hub2, hlb2⟩ := total_score_bounds i a2 r hi h2 hr
      omega
  · rcases Nat.eq_or_lt_of_le h1 with heq | hlt
    · rw [heq]
    · obtain ⟨hub, hlb⟩ := total_score_bounds i a r hi ha hr
      obtain ⟨hub2, hlb2⟩ := total_score_bounds i a r2 hi ha h2
      omega

/-- C7 witness: concrete monotonicity instance. -/
theorem claim7_witness :
    total_score 10 20 30 ≤ total_score 50 20 30 :=
  (claim7_total_monotone 10 50 20 20 30 30 (by decide) (by decide) (by decide)).1
    (by decide) (by decide)

/-- C8: the suggestion list of `calculate_trust_score` is the
concatenation of the identity, activity and reputation suggestion lists
in that order truncated to the first three entries, hence its length is
always at most 3. -/
theorem claim8_suggestions_concat (hl hd hb : Bool) (vc cc crc : Nat) :
    trust_score_suggestions hl hd hb vc cc crc =
      (identity_suggestions hl hd hb ++ activity_suggestions vc cc crc ++
        reputation_suggestions).take 3 ∧
    (trust_score_suggestions hl hd hb vc cc crc).length ≤ 3 := by
  refine ⟨rfl, ?_⟩
  simp only [trust_score_suggestions]
  exact List.length_take_le 3 _

end Credity
